import Mathlib

/-!
Shallow embedding of the cookbook service in
src/backend/py_template/devdonalds.py: the entry data model, the admission
logic of create_entry, the recursive recipe expansion get_base_ingredients,
the aggregation get_total_cook_time and the summary query, together with
theorems checking the specification's claims against the embedding.

Python integers are modelled by Int.  A Python dict with string keys and
integer values is modelled by an association list in insertion order with
unique keys (dictGet / dictAdd below mirror d.get(k, 0) and d[k] = v).
A computation that can raise an unhandled exception (KeyError,
AttributeError) is modelled by Option, with none for the crash; the
recursion of get_base_ingredients, which the source does not bound, is
modelled with explicit fuel, none meaning that no amount of fuel suffices
(divergence).  The exception raised for a missing dependency and caught by
the summary endpoint is modelled by Except.
-/

deriving instance DecidableEq for Except

namespace Devdonalds

/-- The RequiredItem dataclass of devdonalds.py (lines 11-14). -/
structure RequiredItem where
  name : String
  quantity : Int
deriving DecidableEq

/-- The Recipe dataclass of devdonalds.py (lines 16-20); the constant
type field "recipe" is encoded by the constructor of CookbookEntry. -/
structure Recipe where
  name : String
  required_items : List RequiredItem
deriving DecidableEq

/-- The Ingredient dataclass of devdonalds.py (lines 22-26); the constant
type field "ingredient" is encoded by the constructor of CookbookEntry. -/
structure Ingredient where
  name : String
  cook_time : Int
deriving DecidableEq

/-- A cookbook entry: either a Recipe or an Ingredient.  The source
dispatches on the string field .type, which is "recipe" exactly for
Recipe objects and "ingredient" exactly for Ingredient objects, so the
dispatch is a match on this sum type. -/
inductive CookbookEntry where
  | recipe : Recipe → CookbookEntry
  | ingredient : Ingredient → CookbookEntry
deriving DecidableEq

/-- The name attribute shared by both entry variants. -/
def CookbookEntry.name : CookbookEntry → String
  | CookbookEntry.recipe r => r.name
  | CookbookEntry.ingredient i => i.name

/-- A Python dict from ingredient names to integer quantities, as an
association list in insertion order with unique keys. -/
abbrev Dict := List (String × Int)

/-- Python d.get(k, 0): the value of the first binding of k, or 0. -/
def dictGet : Dict → String → Int
  | [], _ => 0
  | p :: rest, k => if p.1 = k then p.2 else dictGet rest k

/-- Python d[k] = d.get(k, 0) + v: update the binding of k in place if k
is a key, otherwise append the new binding at the end. -/
def dictAdd : Dict → String → Int → Dict
  | [], k, v => [(k, v)]
  | p :: rest, k, v =>
    if p.1 = k then (p.1, p.2 + v) :: rest else p :: dictAdd rest k v

/-- The merge loop of devdonalds.py lines 192-193: for each binding of
the second dict, add its value to the accumulator dict. -/
def mergeDict (acc : Dict) : Dict → Dict
  | [] => acc
  | p :: rest => mergeDict (dictAdd acc p.1 p.2) rest

/-- The keys of a dict, in order. -/
def dictKeys (d : Dict) : List String := d.map Prod.fst

/-- The sum of the values bound to a given key in a raw association list
(which may repeat keys); used to state the specification-side summation
over occurrences. -/
def keySum : List (String × Int) → String → Int
  | [], _ => 0
  | p :: rest, n => (if p.1 = n then p.2 else 0) + keySum rest n

/-- The lookup loop of devdonalds.py lines 178-181 (and 145-149, 204-205):
scan the cookbook list and return the first entry with the given name. -/
def find_entry : List CookbookEntry → String → Option CookbookEntry
  | [], _ => none
  | e :: rest, n => if e.name = n then some e else find_entry rest n

/-- Error message strings returned by devdonalds.py (the jsonify bodies
and the exception text), quoted verbatim from the source. -/
def typeMissingMsg : String := "The type is missing! Please add the type to your request!!!"

/-- Error message of devdonalds.py line 77. -/
def invalidTypeMsg : String := "Please use the specified type of either 'recipe' or 'ingredient'."

/-- Error message of devdonalds.py line 80. -/
def missingRequiredItemsMsg : String := "Please ensure your recipe has a requiredItems field."

/-- Error message of devdonalds.py line 83. -/
def invalidCookTimeMsg : String := "Please enter a valid 'cookTime' that is greater or equal to 0!!!"

/-- Error message of devdonalds.py line 87. -/
def duplicateNameMsg : String := "An entry of this name already exists. Please provide unique entry names!!!"

/-- Error message of devdonalds.py line 100. -/
def duplicateRequiredItemsMsg : String := "There are duplicate entires in 'requiredItems'. It can only contain unique elements!!!"

/-- Error message of devdonalds.py line 149. -/
def wrongTypeMsg : String := "An ingredient was passed in. Please ONLY pass in a valid recipe!!!"

/-- Error message of devdonalds.py line 152. -/
def notFoundMsg : String := "Recipe is not in the cookbook!!!"

/-- Text of the exception raised at devdonalds.py line 184 and returned
as str(e) by the summary endpoint at line 158. -/
def missingDependencyMsg : String := "The recipe contains recipes or ingredients that aren't in the cookbook."

/-- The HTTP response of the entry endpoint: ok is the pair of an empty
body and status 200 at line 120, err m the pair of the JSON body with the
message m under the key error and status 400. -/
inductive Resp where
  | ok : Resp
  | err : String → Resp
deriving DecidableEq

/-- The HTTP status component of a response of the entry endpoint. -/
def respStatus : Resp → Nat
  | Resp.ok => 200
  | Resp.err _ => 400

/-- One element of the requiredItems array of a request body; the source
reads the keys name and quantity of each element. -/
structure ReqItemPayload where
  name : String
  quantity : Int
deriving DecidableEq

/-- A JSON request body for the entry endpoint; each field is optional
because the source accesses absent keys with payload[k], which raises
KeyError, except for the two presence checks it performs explicitly. -/
structure Payload where
  type : Option String
  name : Option String
  cookTime : Option Int
  requiredItems : Option (List ReqItemPayload)
deriving DecidableEq

/-- The duplicate-name loop of devdonalds.py lines 85-87: each iteration
evaluates payload["name"], so a missing name key raises KeyError (none)
as soon as the cookbook is nonempty; otherwise report whether some
existing entry carries the payload's name. -/
def dupNameCheck : List CookbookEntry → Option String → Option Bool
  | [], _ => some false
  | _ :: _, none => none
  | e :: rest, some n => if e.name = n then some true else dupNameCheck rest (some n)

/-- The seen-set loop of validate_required_items (devdonalds.py lines
126-133), with the set modelled as a list of names. -/
def vriLoop : List RequiredItem → List String → Bool
  | [], _ => false
  | item :: rest, seen =>
    if item.name ∈ seen then true else vriLoop rest (item.name :: seen)

/-- validate_required_items of devdonalds.py lines 122-133: true when
the list repeats a name. -/
def validate_required_items (required_items_list : List RequiredItem) : Bool :=
  vriLoop required_items_list []

/-- The required_items_list built at devdonalds.py lines 89-97: the
requiredItems of the payload as RequiredItem values for a recipe, the
empty list otherwise. -/
def build_required_items (payload : Payload) (t : String) : List RequiredItem :=
  if t = "recipe" then
    (payload.requiredItems.getD []).map (fun i => RequiredItem.mk i.name i.quantity)
  else []

/-- Stage of create_entry after the duplicate-name check (devdonalds.py
lines 89-120): build required_items_list, reject duplicate required-item
names, then append the new entry; the entry constructions at lines 104-117
evaluate payload["name"] (and payload["cookTime"]), so a missing key
raises KeyError (none). -/
def create_entry_admit (cookbook : List CookbookEntry) (payload : Payload)
    (t : String) : Option (List CookbookEntry × Resp) :=
  if validate_required_items (build_required_items payload t) then
    some (cookbook, Resp.err duplicateRequiredItemsMsg)
  else
    match payload.name with
    | none => none
    | some n =>
      if t = "recipe" then
        some (cookbook ++
          [CookbookEntry.recipe (Recipe.mk n (build_required_items payload t))], Resp.ok)
      else
        match payload.cookTime with
        | none => none
        | some ct =>
          some (cookbook ++ [CookbookEntry.ingredient (Ingredient.mk n ct)], Resp.ok)

/-- The duplicate-name loop of devdonalds.py lines 85-87 followed by the
admission stage: KeyError (none) when the name key is missing and the
cookbook nonempty, the DuplicateName rejection when the name is taken,
otherwise the admission stage. -/
def create_entry_dupStage (cookbook : List CookbookEntry) (payload : Payload)
    (t : String) : Option (List CookbookEntry × Resp) :=
  match dupNameCheck cookbook payload.name with
  | none => none
  | some true => some (cookbook, Resp.err duplicateNameMsg)
  | some false => create_entry_admit cookbook payload t

/-- Stage of create_entry from the requiredItems presence check on
(devdonalds.py lines 79-87): reject a recipe without requiredItems,
evaluate payload["cookTime"] for an ingredient (KeyError when absent,
rejection when negative), then run the duplicate-name loop. -/
def create_entry_checked (cookbook : List CookbookEntry) (payload : Payload)
    (t : String) : Option (List CookbookEntry × Resp) :=
  if t = "recipe" ∧ payload.requiredItems = none then
    some (cookbook, Resp.err missingRequiredItemsMsg)
  else if t = "ingredient" then
    match payload.cookTime with
    | none => none
    | some ct =>
      if ct < 0 then some (cookbook, Resp.err invalidCookTimeMsg)
      else create_entry_dupStage cookbook payload t
  else create_entry_dupStage cookbook payload t

/-- create_entry of devdonalds.py lines 67-120, as a function from the
current cookbook and the request body to the new cookbook and the
response; none models an unhandled exception (KeyError). -/
def create_entry (cookbook : List CookbookEntry) (payload : Payload) :
    Option (List CookbookEntry × Resp) :=
  match payload.type with
  | none => some (cookbook, Resp.err typeMissingMsg)
  | some t =>
    if t = "recipe" ∨ t = "ingredient" then create_entry_checked cookbook payload t
    else some (cookbook, Resp.err invalidTypeMsg)

/-- The body of the for loop of get_base_ingredients (devdonalds.py lines
176-193), parametrised by the recursive call rec for sub-recipes: look up
each required item, raise (Except.error) when it is absent, accumulate
quantity * multiplier for an ingredient, and merge the recursively
expanded dict for a recipe.  The outer Option models divergence of the
unbounded recursion: none means the fuel given to rec ran out. -/
def gbiLoop (cookbook : List CookbookEntry)
    (rec : Recipe → Int → Option (Except Unit Dict)) :
    List RequiredItem → Int → Dict → Option (Except Unit Dict)
  | [], _, acc => some (Except.ok acc)
  | item :: rest, multiplier, acc =>
    match find_entry cookbook item.name with
    | none => some (Except.error ())
    | some (CookbookEntry.ingredient _) =>
      gbiLoop cookbook rec rest multiplier
        (dictAdd acc item.name (item.quantity * multiplier))
    | some (CookbookEntry.recipe r) =>
      match rec r (item.quantity * multiplier) with
      | none => none
      | some (Except.error e) => some (Except.error e)
      | some (Except.ok sub_ingredients) =>
        gbiLoop cookbook rec rest multiplier (mergeDict acc sub_ingredients)

/-- get_base_ingredients of devdonalds.py lines 168-195, with explicit
fuel bounding the recursion depth: the source recursion is unbounded, so
a run that the source would not complete is modelled by none at every
fuel.  Except.error () is the exception raised at line 184 for a missing
dependency, which propagates through every recursion level. -/
def get_base_ingredients (cookbook : List CookbookEntry) :
    Nat → Recipe → Int → Option (Except Unit Dict)
  | 0, _, _ => none
  | fuel + 1, recipe, multiplier =>
    gbiLoop cookbook (get_base_ingredients cookbook fuel)
      recipe.required_items multiplier []

/-- The inner loop of get_total_cook_time (devdonalds.py lines 204-206):
scan the whole cookbook (no break) and add cook_time * quantity for every
entry whose name matches; reading cook_time of a Recipe raises
AttributeError, modelled by none. -/
def cookTimeScan (cookbook : List CookbookEntry) (n : String) (q : Int)
    (acc : Int) : Option Int :=
  match cookbook with
  | [] => some acc
  | e :: rest =>
    if e.name = n then
      match e with
      | CookbookEntry.ingredient i => cookTimeScan rest n q (acc + i.cook_time * q)
      | CookbookEntry.recipe _ => none
    else cookTimeScan rest n q acc

/-- The outer loop of get_total_cook_time over the dict items. -/
def gtctLoop (cookbook : List CookbookEntry) : Dict → Int → Option Int
  | [], acc => some acc
  | p :: rest, acc =>
    match cookTimeScan cookbook p.1 p.2 acc with
    | none => none
    | some acc2 => gtctLoop cookbook rest acc2

/-- get_total_cook_time of devdonalds.py lines 197-208. -/
def get_total_cook_time (cookbook : List CookbookEntry) (base_ingredients : Dict) :
    Option Int :=
  gtctLoop cookbook base_ingredients 0

/-- The selection loop of the summary endpoint (devdonalds.py lines
144-149): remember the last recipe whose name matches (no break), and
return the wrong-type error as soon as an ingredient with the queried
name is seen. -/
def summaryLookup : List CookbookEntry → String → Option Recipe →
    Except String (Option Recipe)
  | [], _, acc => Except.ok acc
  | e :: rest, q, acc =>
    if e.name = q then
      match e with
      | CookbookEntry.recipe r => summaryLookup rest q (some r)
      | CookbookEntry.ingredient _ => Except.error wrongTypeMsg
    else summaryLookup rest q acc

/-- The summary endpoint of devdonalds.py lines 138-166: select the
recipe, expand it with multiplier 1, catch the missing-dependency
exception as its str(e) text, then aggregate the cook time (outside the
try block, so an AttributeError there is an unhandled crash: none).  The
ok result carries the response fields name, cookTime and ingredients. -/
def summary (cookbook : List CookbookEntry) (fuel : Nat) (query_name : String) :
    Option (Except String (String × Int × Dict)) :=
  match summaryLookup cookbook query_name none with
  | Except.error msg => some (Except.error msg)
  | Except.ok none => some (Except.error notFoundMsg)
  | Except.ok (some recipe_entry) =>
    match get_base_ingredients cookbook fuel recipe_entry 1 with
    | none => none
    | some (Except.error _) => some (Except.error missingDependencyMsg)
    | some (Except.ok base_ingredients_dict) =>
      match get_total_cook_time cookbook base_ingredients_dict with
      | none => none
      | some total_cook_time =>
        some (Except.ok (query_name, total_cook_time, base_ingredients_dict))

/-- The per-item traversal underlying the specification-side occurrence
list leafOccurrences, parametrised by the recursive call rec. -/
def occLoop (cookbook : List CookbookEntry)
    (rec : Recipe → Int → Option (Except Unit (List (String × Int)))) :
    List RequiredItem → Int → Option (Except Unit (List (String × Int)))
  | [], _ => some (Except.ok [])
  | item :: rest, multiplier =>
    match find_entry cookbook item.name with
    | none => some (Except.error ())
    | some (CookbookEntry.ingredient _) =>
      match occLoop cookbook rec rest multiplier with
      | none => none
      | some (Except.error e) => some (Except.error e)
      | some (Except.ok l) =>
        some (Except.ok ((item.name, item.quantity * multiplier) :: l))
    | some (CookbookEntry.recipe r) =>
      match rec r (item.quantity * multiplier) with
      | none => none
      | some (Except.error e) => some (Except.error e)
      | some (Except.ok lsub) =>
        match occLoop cookbook rec rest multiplier with
        | none => none
        | some (Except.error e) => some (Except.error e)
        | some (Except.ok l) => some (Except.ok (lsub ++ l))

/-- Specification-side definition, modelled from the spec's words for the
refinement claim about resolution: the list of occurrences of base
ingredients anywhere in the expansion tree of a recipe, each paired with
the product of the quantities along the path from the target to that
occurrence (times the initial multiplier).  It performs the same lookups
and consumes fuel exactly as get_base_ingredients does, but returns the
raw occurrence list instead of a key-summed dict. -/
def leafOccurrences (cookbook : List CookbookEntry) :
    Nat → Recipe → Int → Option (Except Unit (List (String × Int)))
  | 0, _, _ => none
  | fuel + 1, recipe, multiplier =>
    occLoop cookbook (leafOccurrences cookbook fuel) recipe.required_items multiplier

/-- The stored cook time of a name (0 when the name does not resolve to
an ingredient; the claims only use it when it does). -/
def cookTimeOf (cookbook : List CookbookEntry) (n : String) : Int :=
  match find_entry cookbook n with
  | some (CookbookEntry.ingredient i) => i.cook_time
  | _ => 0

/-- Specification-side definition for the cook-time claim: the sum over
the (name, quantity) pairs of a dict of the stored cook time of that
name times the quantity. -/
def specTotalCookTime (cookbook : List CookbookEntry) : Dict → Int
  | [] => 0
  | p :: rest => cookTimeOf cookbook p.1 * p.2 + specTotalCookTime cookbook rest

/-- Decidable pre-check predicate: the payload passes every check of
create_entry that precedes the duplicate-name loop (valid type; for a
recipe the requiredItems field present; for an ingredient the cookTime
field present and non-negative). -/
def entryPrechecksPass (p : Payload) : Bool :=
  match p.type with
  | none => false
  | some t =>
    if t = "recipe" then p.requiredItems.isSome
    else if t = "ingredient" then
      match p.cookTime with
      | none => false
      | some ct => decide (0 ≤ ct)
    else false

/-- Concrete ingredient Flour with cook time 1 (the spec's nested
expansion example). -/
def flourIngredient : CookbookEntry := CookbookEntry.ingredient (Ingredient.mk "Flour" 1)

/-- Concrete recipe Dough requiring two Flour. -/
def doughRecipe : Recipe := Recipe.mk "Dough" [RequiredItem.mk "Flour" 2]

/-- Concrete recipe Bread requiring three Dough. -/
def breadRecipe : Recipe := Recipe.mk "Bread" [RequiredItem.mk "Dough" 3]

/-- Store holding Bread, Dough and Flour. -/
def breadStore : List CookbookEntry :=
  [CookbookEntry.recipe breadRecipe, CookbookEntry.recipe doughRecipe, flourIngredient]

/-- Store holding Dough and Flour. -/
def doughStore : List CookbookEntry :=
  [CookbookEntry.recipe doughRecipe, flourIngredient]

/-- Recipe A of the cyclic example: A requires one B. -/
def recipeA : Recipe := Recipe.mk "A" [RequiredItem.mk "B" 1]

/-- Recipe B of the cyclic example: B requires one A. -/
def recipeB : Recipe := Recipe.mk "B" [RequiredItem.mk "A" 1]

/-- The cyclic store: A requires B and B requires A. -/
def cyclicStore : List CookbookEntry :=
  [CookbookEntry.recipe recipeA, CookbookEntry.recipe recipeB]

theorem dictGet_dictAdd (d : Dict) (k : String) (v : Int) (n : String) :
    dictGet (dictAdd d k v) n = dictGet d n + (if k = n then v else 0) := by
  induction d with
  | nil => by_cases h : k = n <;> simp [dictAdd, dictGet, h]
  | cons p rest ih =>
    by_cases hpk : p.1 = k
    · subst hpk
      by_cases hpn : p.1 = n <;> simp [dictAdd, dictGet, hpn]
    · by_cases hpn : p.1 = n
      · have hkn : ¬ k = n := fun h => hpk (h ▸ hpn)
        have hnk : ¬ n = k := fun h => hkn h.symm
        simp [dictAdd, dictGet, hpk, hpn, hkn, hnk]
      · simp [dictAdd, dictGet, hpk, hpn, ih]

theorem keySum_append (l1 l2 : List (String × Int)) (n : String) :
    keySum (l1 ++ l2) n = keySum l1 n + keySum l2 n := by
  induction l1 with
  | nil => simp [keySum]
  | cons p rest ih => simp [keySum, ih, add_assoc]

theorem dictGet_mergeDict (s : Dict) (acc : Dict) (n : String) :
    dictGet (mergeDict acc s) n = dictGet acc n + keySum s n := by
  induction s generalizing acc with
  | nil => simp [mergeDict, keySum]
  | cons p rest ih =>
    show dictGet (mergeDict (dictAdd acc p.1 p.2) rest) n = _
    rw [ih, dictGet_dictAdd]
    simp [keySum, add_assoc]

theorem dictKeys_dictAdd_of_mem {d : Dict} {k : String} (v : Int)
    (h : k ∈ dictKeys d) : dictKeys (dictAdd d k v) = dictKeys d := by
  induction d with
  | nil => simp [dictKeys] at h
  | cons p rest ih =>
    by_cases hpk : p.1 = k
    · simp [dictAdd, dictKeys, hpk]
    · have hk : k ∈ dictKeys rest := by
        have hc : k = p.1 ∨ k ∈ dictKeys rest := List.mem_cons.mp h
        rcases hc with hc | hc
        · exact absurd hc.symm hpk
        · exact hc
      have hstep : dictAdd (p :: rest) k v = p :: dictAdd rest k v := by
        simp [dictAdd, hpk]
      rw [hstep]
      show p.1 :: dictKeys (dictAdd rest k v) = p.1 :: dictKeys rest
      rw [ih hk]

theorem dictKeys_dictAdd_of_not_mem {d : Dict} {k : String} (v : Int)
    (h : k ∉ dictKeys d) : dictKeys (dictAdd d k v) = dictKeys d ++ [k] := by
  induction d with
  | nil => simp [dictAdd, dictKeys]
  | cons p rest ih =>
    have hpk : ¬ p.1 = k := fun he => h (List.mem_cons.mpr (Or.inl he.symm))
    have hk : k ∉ dictKeys rest := fun he => h (List.mem_cons_of_mem p.1 he)
    have hstep : dictAdd (p :: rest) k v = p :: dictAdd rest k v := by
      simp [dictAdd, hpk]
    rw [hstep]
    show p.1 :: dictKeys (dictAdd rest k v) = (p.1 :: dictKeys rest) ++ [k]
    rw [ih hk, List.cons_append]

theorem nodup_dictAdd {d : Dict} (k : String) (v : Int)
    (h : (dictKeys d).Nodup) : (dictKeys (dictAdd d k v)).Nodup := by
  by_cases hk : k ∈ dictKeys d
  · rw [dictKeys_dictAdd_of_mem v hk]
    exact h
  · rw [dictKeys_dictAdd_of_not_mem v hk]
    simp [List.nodup_append, h, hk]

theorem nodup_mergeDict (s : Dict) {acc : Dict}
    (h : (dictKeys acc).Nodup) : (dictKeys (mergeDict acc s)).Nodup := by
  induction s generalizing acc with
  | nil => exact h
  | cons p rest ih => exact ih (nodup_dictAdd p.1 p.2 h)

theorem keySum_eq_zero_of_not_mem {d : Dict} {n : String}
    (h : n ∉ dictKeys d) : keySum d n = 0 := by
  induction d with
  | nil => rfl
  | cons p rest ih =>
    have h1 : ¬ p.1 = n := fun he => h (List.mem_cons.mpr (Or.inl he.symm))
    have h2 : n ∉ dictKeys rest := fun he => h (List.mem_cons_of_mem p.1 he)
    simp [keySum, h1, ih h2]

theorem dictGet_eq_keySum {d : Dict} (hd : (dictKeys d).Nodup) (n : String) :
    dictGet d n = keySum d n := by
  induction d with
  | nil => rfl
  | cons p rest ih =>
    have hrest : (dictKeys rest).Nodup := (List.nodup_cons.mp hd).2
    by_cases hpn : p.1 = n
    · have hnot : n ∉ dictKeys rest := hpn ▸ (List.nodup_cons.mp hd).1
      simp [dictGet, keySum, hpn, keySum_eq_zero_of_not_mem hnot]
    · simp [dictGet, keySum, hpn, ih hrest]

theorem gbiLoop_occ (cookbook : List CookbookEntry)
    (f g : Recipe → Int → Option (Except Unit Dict))
    (hfg : ∀ r mult d, f r mult = some (Except.ok d) →
      (dictKeys d).Nodup ∧ ∃ l, g r mult = some (Except.ok l) ∧
        ∀ n, dictGet d n = keySum l n) :
    ∀ items mult acc d, (dictKeys acc).Nodup →
      gbiLoop cookbook f items mult acc = some (Except.ok d) →
      (dictKeys d).Nodup ∧ ∃ l, occLoop cookbook g items mult = some (Except.ok l) ∧
        ∀ n, dictGet d n = dictGet acc n + keySum l n := by
  intro items
  induction items with
  | nil =>
    intro mult acc d hacc h
    simp only [gbiLoop] at h
    obtain rfl : acc = d := by simpa using h
    exact ⟨hacc, [], rfl, fun n => by simp [occLoop, keySum]⟩
  | cons item rest ih =>
    intro mult acc d hacc h
    rcases hfind : find_entry cookbook item.name with _ | (r | i)
    · simp only [gbiLoop, hfind] at h
      simp at h
    · simp only [gbiLoop, hfind] at h
      rcases hf : f r (item.quantity * mult) with _ | (e0 | sub)
      · simp only [hf] at h
        simp at h
      · simp only [hf] at h
        simp at h
      · simp only [hf] at h
        obtain ⟨hsubN, lsub, hgsub, hsubsum⟩ := hfg r (item.quantity * mult) sub hf
        obtain ⟨hdN, l, hocc, hsum⟩ :=
          ih mult (mergeDict acc sub) d (nodup_mergeDict sub hacc) h
        refine ⟨hdN, lsub ++ l, ?_, ?_⟩
        · simp only [occLoop, hfind, hgsub, hocc]
        · intro n
          rw [hsum, dictGet_mergeDict, keySum_append,
            ← dictGet_eq_keySum hsubN n, hsubsum n, add_assoc]
    · simp only [gbiLoop, hfind] at h
      obtain ⟨hdN, l, hocc, hsum⟩ :=
        ih mult (dictAdd acc item.name (item.quantity * mult)) d
          (nodup_dictAdd item.name (item.quantity * mult) hacc) h
      refine ⟨hdN, (item.name, item.quantity * mult) :: l, ?_, ?_⟩
      · simp only [occLoop, hfind, hocc]
      · intro n
        rw [hsum, dictGet_dictAdd]
        simp [keySum, add_assoc]

theorem gbi_occ (cookbook : List CookbookEntry) : ∀ fuel r mult d,
    get_base_ingredients cookbook fuel r mult = some (Except.ok d) →
    (dictKeys d).Nodup ∧ ∃ l, leafOccurrences cookbook fuel r mult = some (Except.ok l) ∧
      ∀ n, dictGet d n = keySum l n := by
  intro fuel
  induction fuel with
  | zero =>
    intro r mult d h
    simp [get_base_ingredients] at h
  | succ f ih =>
    intro r mult d h
    simp only [get_base_ingredients] at h
    obtain ⟨hdN, l, hocc, hsum⟩ :=
      gbiLoop_occ cookbook _ _ ih r.required_items mult [] d (by simp [dictKeys]) h
    refine ⟨hdN, l, ?_, fun n => by rw [hsum n]; simp [dictGet]⟩
    simpa only [leafOccurrences] using hocc

/-- C1: for every store and target recipe whose expansion succeeds,
get_base_ingredients at multiplier 1 returns a dict in which each base
ingredient name is mapped to the sum, over every occurrence of that
ingredient anywhere in the expansion tree (leafOccurrences), of the
product of the quantities along the path from the target to that
occurrence. -/
theorem resolve_sums_path_products (cookbook : List CookbookEntry)
    (fuel : Nat) (r : Recipe) (d : Dict)
    (h : get_base_ingredients cookbook fuel r 1 = some (Except.ok d)) :
    ∃ l, leafOccurrences cookbook fuel r 1 = some (Except.ok l) ∧
      ∀ n, dictGet d n = keySum l n :=
  (gbi_occ cookbook fuel r 1 d h).2

/-- Witness for C1 at the spec's Bread example: applying the theorem to
the concrete store yields exactly the occurrence sum for Flour. -/
theorem resolve_sums_path_products_witness :
    dictGet [("Flour", (6 : Int))] "Flour" = keySum [("Flour", (6 : Int))] "Flour" := by
  obtain ⟨l, hl, hn⟩ :=
    resolve_sums_path_products breadStore 2 breadRecipe [("Flour", 6)] (by decide)
  have hval : leafOccurrences breadStore 2 breadRecipe 1 =
      some (Except.ok [("Flour", (6 : Int))]) := by decide
  rw [hval] at hl
  injection hl with h1
  injection h1 with h2
  subst h2
  exact hn "Flour"

theorem dupNameCheck_eq_true : ∀ (cookbook : List CookbookEntry) (n : String),
    n ∈ cookbook.map CookbookEntry.name → dupNameCheck cookbook (some n) = some true := by
  intro cookbook n
  induction cookbook with
  | nil => intro h; simp at h
  | cons e rest ih =>
    intro h
    by_cases hn : e.name = n
    · simp [dupNameCheck, hn]
    · rw [List.map_cons] at h
      rcases List.mem_cons.mp h with hc | hc
      · exact absurd hc.symm hn
      · simp [dupNameCheck, hn, ih hc]

theorem create_entry_admit_shape {cookbook : List CookbookEntry} {payload : Payload}
    {t : String} {st : List CookbookEntry} {r : Resp}
    (h : create_entry_admit cookbook payload t = some (st, r)) :
    st = cookbook ∨ ∃ n e, payload.name = some n ∧ CookbookEntry.name e = n ∧
      st = cookbook ++ [e] := by
  unfold create_entry_admit at h
  by_cases hval : validate_required_items (build_required_items payload t) = true
  · rw [if_pos hval] at h
    obtain ⟨h1, h2⟩ := by simpa using h
    exact Or.inl h1.symm
  · rw [if_neg hval] at h
    rcases hn : payload.name with _ | n
    · simp [hn] at h
    · simp only [hn] at h
      by_cases hrec : t = "recipe"
      · rw [if_pos hrec] at h
        obtain ⟨h1, h2⟩ := by simpa using h
        exact Or.inr ⟨n, CookbookEntry.recipe (Recipe.mk n (build_required_items payload t)),
          rfl, rfl, h1.symm⟩
      · rw [if_neg hrec] at h
        rcases hct : payload.cookTime with _ | ct
        · simp [hct] at h
        · simp only [hct] at h
          obtain ⟨h1, h2⟩ := by simpa using h
          exact Or.inr ⟨n, CookbookEntry.ingredient (Ingredient.mk n ct), rfl, rfl, h1.symm⟩

theorem create_entry_admit_nodup {cookbook : List CookbookEntry} {payload : Payload}
    {t : String} {st : List CookbookEntry} {r : Resp}
    (hN : (cookbook.map CookbookEntry.name).Nodup)
    (hdup : dupNameCheck cookbook payload.name = some false)
    (h : create_entry_admit cookbook payload t = some (st, r)) :
    (st.map CookbookEntry.name).Nodup := by
  rcases create_entry_admit_shape h with rfl | ⟨n, e, hname, hen, rfl⟩
  · exact hN
  · have hnot : n ∉ cookbook.map CookbookEntry.name := by
      intro hmem
      rw [hname, dupNameCheck_eq_true cookbook n hmem] at hdup
      simp at hdup
    rw [List.map_append]
    simp [List.nodup_append, hN, hen, hnot]

theorem create_entry_dupStage_nodup {cookbook : List CookbookEntry} {payload : Payload}
    {t : String}
    (hN : (cookbook.map CookbookEntry.name).Nodup) :
    ∀ st r, create_entry_dupStage cookbook payload t = some (st, r) →
      (st.map CookbookEntry.name).Nodup := by
  intro st r h
  unfold create_entry_dupStage at h
  rcases hdup : dupNameCheck cookbook payload.name with _ | b
  · simp [hdup] at h
  · cases b
    · simp only [hdup] at h
      exact create_entry_admit_nodup hN hdup h
    · simp only [hdup] at h
      obtain ⟨rfl, rfl⟩ := by simpa using h
      exact hN

theorem create_entry_nodup {cookbook : List CookbookEntry} {payload : Payload}
    (hN : (cookbook.map CookbookEntry.name).Nodup) :
    ∀ st r, create_entry cookbook payload = some (st, r) →
      (st.map CookbookEntry.name).Nodup := by
  intro st r h
  rcases ht : payload.type with _ | t
  · simp only [create_entry, ht] at h
    obtain ⟨rfl, rfl⟩ := by simpa using h
    exact hN
  · simp only [create_entry, ht] at h
    by_cases h0 : t = "recipe" ∨ t = "ingredient"
    · rw [if_pos h0] at h
      unfold create_entry_checked at h
      by_cases h1 : t = "recipe" ∧ payload.requiredItems = none
      · rw [if_pos h1] at h
        obtain ⟨rfl, rfl⟩ := by simpa using h
        exact hN
      · rw [if_neg h1] at h
        by_cases h2 : t = "ingredient"
        · rw [if_pos h2] at h
          rcases hct : payload.cookTime with _ | ct
          · simp [hct] at h
          · simp only [hct] at h
            by_cases h3 : ct < 0
            · rw [if_pos h3] at h
              obtain ⟨rfl, rfl⟩ := by simpa using h
              exact hN
            · rw [if_neg h3] at h
              exact create_entry_dupStage_nodup hN st r h
        · rw [if_neg h2] at h
          exact create_entry_dupStage_nodup hN st r h
    · rw [if_neg h0] at h
      obtain ⟨rfl, rfl⟩ := by simpa using h
      exact hN

theorem create_entry_dup_rejected {cookbook : List CookbookEntry} {payload : Payload}
    {n : String}
    (hpre : entryPrechecksPass payload = true)
    (hname : payload.name = some n)
    (hmem : n ∈ cookbook.map CookbookEntry.name) :
    create_entry cookbook payload = some (cookbook, Resp.err duplicateNameMsg) := by
  have hdup : dupNameCheck cookbook payload.name = some true := by
    rw [hname]
    exact dupNameCheck_eq_true cookbook n hmem
  have hstage : create_entry_dupStage cookbook payload "recipe" =
      some (cookbook, Resp.err duplicateNameMsg) := by
    unfold create_entry_dupStage
    rw [hdup]
  have hstage2 : create_entry_dupStage cookbook payload "ingredient" =
      some (cookbook, Resp.err duplicateNameMsg) := by
    unfold create_entry_dupStage
    rw [hdup]
  rcases ht : payload.type with _ | t
  · simp [entryPrechecksPass, ht] at hpre
  · simp only [entryPrechecksPass, ht] at hpre
    by_cases hrec : t = "recipe"
    · subst hrec
      rw [if_pos rfl] at hpre
      have hri : ¬ payload.requiredItems = none := by
        intro hc
        rw [hc] at hpre
        simp [Option.isSome] at hpre
      simp only [create_entry, ht]
      rw [if_pos (Or.inl trivial)]
      unfold create_entry_checked
      rw [if_neg (fun hc => hri hc.2),
        if_neg (by decide : ¬ ("recipe" : String) = "ingredient")]
      exact hstage
    · by_cases hing : t = "ingredient"
      · subst hing
        rw [if_neg hrec, if_pos rfl] at hpre
        rcases hct : payload.cookTime with _ | ct
        · simp [hct] at hpre
        · simp only [hct] at hpre
          have hle : (0 : Int) ≤ ct := of_decide_eq_true hpre
          simp only [create_entry, ht]
          rw [if_pos (Or.inr trivial)]
          unfold create_entry_checked
          rw [if_neg (fun hc => absurd hc.1 hrec), if_pos rfl]
          simp only [hct]
          rw [if_neg (not_lt.mpr hle)]
          exact hstage2
      · rw [if_neg hrec, if_neg hing] at hpre
        simp at hpre

/-- C2: starting from a store whose entry names are pairwise distinct,
every non-crashing create_entry call leaves the names pairwise distinct
(exact, case-sensitive string equality), and a payload that passes the
checks preceding the duplicate-name loop and carries a name already in
the store is rejected with the DuplicateName outcome, leaving the store
unmodified. -/
theorem create_entry_unique_names (cookbook : List CookbookEntry) (payload : Payload)
    (hN : (cookbook.map CookbookEntry.name).Nodup) :
    (∀ st r, create_entry cookbook payload = some (st, r) →
      (st.map CookbookEntry.name).Nodup) ∧
    (∀ n, entryPrechecksPass payload = true → payload.name = some n →
      n ∈ cookbook.map CookbookEntry.name →
      create_entry cookbook payload = some (cookbook, Resp.err duplicateNameMsg)) :=
  ⟨fun st r h => create_entry_nodup hN st r h,
   fun _ hpre hname hmem => create_entry_dup_rejected hpre hname hmem⟩

/-- Concrete one-ingredient store used by witnesses. -/
def saltStore : List CookbookEntry := [CookbookEntry.ingredient (Ingredient.mk "Salt" 1)]

/-- Witness for C2: re-registering the name Salt is rejected with the
duplicate-name error and the store is returned unchanged. -/
theorem create_entry_unique_names_witness :
    create_entry saltStore (Payload.mk (some "ingredient") (some "Salt") (some 2) none) =
      some (saltStore, Resp.err duplicateNameMsg) :=
  (create_entry_unique_names saltStore
    (Payload.mk (some "ingredient") (some "Salt") (some 2) none) (by decide)).2
    "Salt" (by decide) rfl (by decide)

/-- Payload declaring an ingredient but carrying no cookTime field. -/
def payloadNoCookTime : Payload := Payload.mk (some "ingredient") (some "Flour") none none

/-- Payload declaring an ingredient with negative cookTime. -/
def payloadNegCookTime : Payload :=
  Payload.mk (some "ingredient") (some "Flour") (some (-1)) none

/-- Payload declaring an ingredient with cookTime zero. -/
def payloadZeroCookTime : Payload :=
  Payload.mk (some "ingredient") (some "Flour") (some 0) none

/-- C3 evaluation: an ingredient payload with no cookTime field makes
create_entry crash with a KeyError (modelled none) instead of returning
the MissingField rejection the spec requires; a negative cookTime is
rejected with the invalid-cook-time message, and cookTime zero passes
the check and is admitted. -/
theorem missing_cook_time_crashes :
    payloadNoCookTime.type = some "ingredient" ∧
    payloadNoCookTime.cookTime = none ∧
    create_entry [] payloadNoCookTime = none ∧
    create_entry [] payloadNegCookTime = some ([], Resp.err invalidCookTimeMsg) ∧
    create_entry [] payloadZeroCookTime =
      some ([CookbookEntry.ingredient (Ingredient.mk "Flour" 0)], Resp.ok) := by
  decide

/-- Payload with a valid ingredient variant and non-negative cookTime
but no name field. -/
def payloadNoName : Payload := Payload.mk (some "ingredient") none (some 5) none

/-- C9: a payload whose declared variant is valid and which passes the
variant-specific field checks, but which has no name field, makes
create_entry raise an unhandled KeyError from evaluating payload["name"]
(modelled none) instead of returning a rejection. -/
theorem missing_name_key_crashes :
    payloadNoName.type = some "ingredient" ∧
    payloadNoName.cookTime = some 5 ∧ (0 : Int) ≤ 5 ∧
    payloadNoName.name = none ∧
    create_entry saltStore payloadNoName = none := by
  decide

/-- Recipe payload whose single required item has quantity zero. -/
def payloadZeroQty : Payload :=
  Payload.mk (some "recipe") (some "R") none (some [ReqItemPayload.mk "X" 0])

/-- C8 counterexample: a recipe payload carrying a required item with
quantity 0 is admitted into the store with that quantity stored, although
0 is not a positive integer. -/
theorem zero_quantity_admitted :
    create_entry [] payloadZeroQty =
      some ([CookbookEntry.recipe (Recipe.mk "R" [RequiredItem.mk "X" 0])], Resp.ok) ∧
    ¬ (1 ≤ (RequiredItem.mk "X" (0 : Int)).quantity) := by
  decide

/-- C8 amended: create_entry performs no positivity check on required-item
quantities: a recipe payload with a fresh name and duplicate-free
required-item names is admitted whatever its quantities (zero and
negative included), which are stored verbatim. -/
theorem quantities_stored_verbatim (cookbook : List CookbookEntry) (payload : Payload)
    (n : String) (items : List ReqItemPayload)
    (ht : payload.type = some "recipe")
    (hname : payload.name = some n)
    (hitems : payload.requiredItems = some items)
    (hfresh : dupNameCheck cookbook (some n) = some false)
    (hnodup : validate_required_items
      (items.map (fun i => RequiredItem.mk i.name i.quantity)) = false) :
    create_entry cookbook payload =
      some (cookbook ++ [CookbookEntry.recipe
        (Recipe.mk n (items.map (fun i => RequiredItem.mk i.name i.quantity)))], Resp.ok) := by
  have hbuild : build_required_items payload "recipe" =
      items.map (fun i => RequiredItem.mk i.name i.quantity) := by
    simp [build_required_items, hitems]
  have hri : ¬ (("recipe" : String) = "recipe" ∧ payload.requiredItems = none) := by
    rintro ⟨h1, hc⟩
    rw [hitems] at hc
    exact Option.noConfusion hc
  simp only [create_entry, ht]
  rw [if_pos (Or.inl trivial)]
  unfold create_entry_checked
  rw [if_neg hri, if_neg (by decide : ¬ ("recipe" : String) = "ingredient")]
  unfold create_entry_dupStage
  rw [hname]
  simp only [hfresh]
  unfold create_entry_admit
  rw [hbuild]
  rw [if_neg (by simp [hnodup])]
  simp only [hname]
  rw [if_pos trivial]

/-- Witness for the amended C8 at quantity -5: the recipe is admitted
with the negative quantity stored. -/
theorem quantities_stored_verbatim_witness :
    create_entry []
        (Payload.mk (some "recipe") (some "Neg") none (some [ReqItemPayload.mk "X" (-5)])) =
      some ([CookbookEntry.recipe (Recipe.mk "Neg" [RequiredItem.mk "X" (-5)])], Resp.ok) :=
  quantities_stored_verbatim []
    (Payload.mk (some "recipe") (some "Neg") none (some [ReqItemPayload.mk "X" (-5)]))
    "Neg" [ReqItemPayload.mk "X" (-5)] rfl rfl rfl (by decide) (by decide)

/-- Payload with a type that is neither recipe nor ingredient. -/
def payloadBadType : Payload := Payload.mk (some "pasta") (some "X") none none

/-- Payload attempting to re-register the name Salt. -/
def payloadDupSalt : Payload := Payload.mk (some "ingredient") (some "Salt") (some 0) none

/-- C5 counterexample: two different error kinds (invalid type and
duplicate name) produce responses with the same status and the same
shape, differing only in the human-readable message string, so the
returned value with the message text removed does not determine the
kind. -/
theorem error_kinds_share_status :
    create_entry [] payloadBadType = some ([], Resp.err invalidTypeMsg) ∧
    create_entry saltStore payloadDupSalt = some (saltStore, Resp.err duplicateNameMsg) ∧
    invalidTypeMsg ≠ duplicateNameMsg ∧
    respStatus (Resp.err invalidTypeMsg) = respStatus (Resp.err duplicateNameMsg) := by
  decide

/-- Payload declaring a recipe but carrying no requiredItems field. -/
def payloadNoItems : Payload := Payload.mk (some "recipe") (some "R") none none

/-- Recipe payload listing the same required-item name twice. -/
def payloadDupItems : Payload :=
  Payload.mk (some "recipe") (some "R") none
    (some [ReqItemPayload.mk "Potato" 1, ReqItemPayload.mk "Potato" 2])

/-- Payload with no type field at all. -/
def payloadNoType : Payload := Payload.mk none (some "X") none none

/-- Store with a recipe whose single dependency Ghost has no entry. -/
def ghostStore : List CookbookEntry :=
  [CookbookEntry.recipe (Recipe.mk "R" [RequiredItem.mk "Ghost" 1])]

/-- The recipe of ghostStore. -/
def ghostRecipe : Recipe := Recipe.mk "R" [RequiredItem.mk "Ghost" 1]

/-- C5 amended: each error kind the code actually produces is carried by
a distinct human-readable message string, and every rejection carries
the same status 400 as every other (success is 200), so message text is
the only discriminator between kinds. -/
theorem error_kinds_distinct_by_message_only :
    create_entry [] payloadNoType = some ([], Resp.err typeMissingMsg) ∧
    create_entry [] payloadBadType = some ([], Resp.err invalidTypeMsg) ∧
    create_entry [] payloadNoItems = some ([], Resp.err missingRequiredItemsMsg) ∧
    create_entry [] payloadNegCookTime = some ([], Resp.err invalidCookTimeMsg) ∧
    create_entry saltStore payloadDupSalt = some (saltStore, Resp.err duplicateNameMsg) ∧
    create_entry [] payloadDupItems = some ([], Resp.err duplicateRequiredItemsMsg) ∧
    summary saltStore 1 "Salt" = some (Except.error wrongTypeMsg) ∧
    summary saltStore 1 "Soup" = some (Except.error notFoundMsg) ∧
    summary ghostStore 1 "R" = some (Except.error missingDependencyMsg) ∧
    List.Pairwise (fun a b => a ≠ b)
      [typeMissingMsg, invalidTypeMsg, missingRequiredItemsMsg, invalidCookTimeMsg,
       duplicateNameMsg, duplicateRequiredItemsMsg, wrongTypeMsg, notFoundMsg,
       missingDependencyMsg] ∧
    respStatus (Resp.err typeMissingMsg) = 400 ∧
    respStatus (Resp.err missingDependencyMsg) = 400 ∧
    respStatus Resp.ok = 200 :=
  ⟨by decide, by decide, by decide, by decide, by decide, by decide, by decide,
   by decide, by decide, by decide, by decide, by decide, by decide⟩

theorem summaryLookup_no_match : ∀ (cookbook : List CookbookEntry) (q : String)
    (acc : Option Recipe), (∀ e ∈ cookbook, e.name ≠ q) →
    summaryLookup cookbook q acc = Except.ok acc := by
  intro cookbook q
  induction cookbook with
  | nil =>
    intro acc h
    rfl
  | cons e rest ih =>
    intro acc h
    have he : ¬ e.name = q := h e (List.mem_cons_self e rest)
    simp only [summaryLookup]
    rw [if_neg he]
    exact ih acc (fun e2 he2 => h e2 (List.mem_cons_of_mem e he2))

theorem summaryLookup_finds : ∀ (cookbook : List CookbookEntry) (r : Recipe)
    (acc : Option Recipe), (cookbook.map CookbookEntry.name).Nodup →
    CookbookEntry.recipe r ∈ cookbook →
    summaryLookup cookbook r.name acc = Except.ok (some r) := by
  intro cookbook
  induction cookbook with
  | nil =>
    intro r acc hN hr
    simp at hr
  | cons e rest ih =>
    intro r acc hN hr
    have hhead : e.name ∉ rest.map CookbookEntry.name := (List.nodup_cons.mp hN).1
    have htail : (rest.map CookbookEntry.name).Nodup := (List.nodup_cons.mp hN).2
    rcases List.mem_cons.mp hr with heq | hmem
    · subst heq
      simp only [summaryLookup, CookbookEntry.name]
      rw [if_pos trivial]
      apply summaryLookup_no_match
      intro e2 he2 hc
      apply hhead
      show r.name ∈ List.map CookbookEntry.name rest
      rw [← hc]
      exact List.mem_map_of_mem CookbookEntry.name he2
    · have hne : ¬ e.name = r.name := by
        intro hc
        apply hhead
        rw [hc]
        exact List.mem_map_of_mem CookbookEntry.name hmem
      simp only [summaryLookup]
      rw [if_neg hne]
      exact ih r acc htail hmem

/-- C4: when the expansion of a recipe that is in the store (whose names
are distinct) raises the missing-dependency exception, the summary query
on its name returns the missing-dependency error and no ingredient
mapping. -/
theorem summary_missing_dependency (cookbook : List CookbookEntry) (fuel : Nat)
    (r : Recipe)
    (hN : (cookbook.map CookbookEntry.name).Nodup)
    (hr : CookbookEntry.recipe r ∈ cookbook)
    (hfail : get_base_ingredients cookbook fuel r 1 = some (Except.error ())) :
    summary cookbook fuel r.name = some (Except.error missingDependencyMsg) := by
  unfold summary
  rw [summaryLookup_finds cookbook r none hN hr]
  simp only [hfail]

/-- Witness for C4: the recipe R depends on the absent name Ghost, and
the summary of R fails with the missing-dependency message. -/
theorem summary_missing_dependency_witness :
    summary ghostStore 1 "R" = some (Except.error missingDependencyMsg) :=
  summary_missing_dependency ghostStore 1 ghostRecipe (by decide) (by decide) (by decide)

/-- C10: for every recipe in a distinct-name store whose required_items
list is empty, the summary query on its name succeeds with an empty
ingredient mapping and total cook time 0, at any positive fuel. -/
theorem summary_empty_recipe (cookbook : List CookbookEntry) (fuel : Nat) (r : Recipe)
    (hN : (cookbook.map CookbookEntry.name).Nodup)
    (hr : CookbookEntry.recipe r ∈ cookbook)
    (hempty : r.required_items = []) :
    summary cookbook (fuel + 1) r.name = some (Except.ok (r.name, 0, [])) := by
  have hgbi : get_base_ingredients cookbook (fuel + 1) r 1 = some (Except.ok []) := by
    simp only [get_base_ingredients, hempty]
    rfl
  unfold summary
  rw [summaryLookup_finds cookbook r none hN hr]
  simp only [hgbi]
  rfl

/-- Recipe with an empty required_items list. -/
def emptyRecipe : Recipe := Recipe.mk "Empty" []

/-- Store holding only the empty recipe. -/
def emptyStore : List CookbookEntry := [CookbookEntry.recipe emptyRecipe]

/-- Witness for C10: the summary of the empty recipe succeeds with no
ingredients and cook time 0. -/
theorem summary_empty_recipe_witness :
    summary emptyStore 1 "Empty" = some (Except.ok ("Empty", 0, [])) :=
  summary_empty_recipe emptyStore 0 emptyRecipe (by decide) (by decide) rfl

theorem mem_dictKeys_dictAdd {d : Dict} {k : String} {v : Int} {n : String}
    (h : n ∈ dictKeys (dictAdd d k v)) : n = k ∨ n ∈ dictKeys d := by
  by_cases hk : k ∈ dictKeys d
  · rw [dictKeys_dictAdd_of_mem v hk] at h
    exact Or.inr h
  · rw [dictKeys_dictAdd_of_not_mem v hk] at h
    rcases List.mem_append.mp h with h2 | h2
    · exact Or.inr h2
    · simp at h2
      exact Or.inl h2

theorem mem_dictKeys_mergeDict : ∀ (s acc : Dict) (n : String),
    n ∈ dictKeys (mergeDict acc s) → n ∈ dictKeys acc ∨ n ∈ dictKeys s := by
  intro s
  induction s with
  | nil =>
    intro acc n h
    exact Or.inl h
  | cons p rest ih =>
    intro acc n h
    rcases ih (dictAdd acc p.1 p.2) n h with h2 | h2
    · rcases mem_dictKeys_dictAdd h2 with rfl | h3
      · exact Or.inr (List.mem_cons_self p.1 (dictKeys rest))
      · exact Or.inl h3
    · exact Or.inr (List.mem_cons_of_mem p.1 h2)

/-- The name resolves in the store to an Ingredient entry. -/
def ingredientKey (cookbook : List CookbookEntry) (n : String) : Prop :=
  ∃ i, find_entry cookbook n = some (CookbookEntry.ingredient i)

theorem gbiLoop_keys (cookbook : List CookbookEntry)
    (f : Recipe → Int → Option (Except Unit Dict))
    (hf : ∀ r mult d, f r mult = some (Except.ok d) →
      ∀ n ∈ dictKeys d, ingredientKey cookbook n) :
    ∀ items mult acc d, (∀ n ∈ dictKeys acc, ingredientKey cookbook n) →
      gbiLoop cookbook f items mult acc = some (Except.ok d) →
      ∀ n ∈ dictKeys d, ingredientKey cookbook n := by
  intro items
  induction items with
  | nil =>
    intro mult acc d hacc h
    obtain rfl : acc = d := by simpa [gbiLoop] using h
    exact hacc
  | cons item rest ih =>
    intro mult acc d hacc h
    rcases hfind : find_entry cookbook item.name with _ | (r | i)
    · simp only [gbiLoop, hfind] at h
      simp at h
    · simp only [gbiLoop, hfind] at h
      rcases hfr : f r (item.quantity * mult) with _ | (e0 | sub)
      · simp only [hfr] at h
        simp at h
      · simp only [hfr] at h
        simp at h
      · simp only [hfr] at h
        refine ih mult (mergeDict acc sub) d ?_ h
        intro n hn
        rcases mem_dictKeys_mergeDict sub acc n hn with hc | hc
        · exact hacc n hc
        · exact hf r (item.quantity * mult) sub hfr n hc
    · simp only [gbiLoop, hfind] at h
      refine ih mult (dictAdd acc item.name (item.quantity * mult)) d ?_ h
      intro n hn
      rcases mem_dictKeys_dictAdd hn with rfl | hc
      · exact ⟨i, hfind⟩
      · exact hacc n hc

theorem gbi_keys (cookbook : List CookbookEntry) : ∀ fuel r mult d,
    get_base_ingredients cookbook fuel r mult = some (Except.ok d) →
    ∀ n ∈ dictKeys d, ingredientKey cookbook n := by
  intro fuel
  induction fuel with
  | zero =>
    intro r mult d h
    simp [get_base_ingredients] at h
  | succ f ih =>
    intro r mult d h
    simp only [get_base_ingredients] at h
    exact gbiLoop_keys cookbook _ ih r.required_items mult [] d (by simp [dictKeys]) h

theorem cookTimeScan_no_match : ∀ (cookbook : List CookbookEntry) (n : String)
    (q acc : Int), (∀ e ∈ cookbook, e.name ≠ n) →
    cookTimeScan cookbook n q acc = some acc := by
  intro cookbook
  induction cookbook with
  | nil =>
    intro n q acc h
    rfl
  | cons e rest ih =>
    intro n q acc h
    have he : ¬ e.name = n := h e (List.mem_cons_self e rest)
    simp only [cookTimeScan]
    rw [if_neg he]
    exact ih n q acc (fun e2 h2 => h e2 (List.mem_cons_of_mem e h2))

theorem cookTimeScan_found : ∀ (cookbook : List CookbookEntry) (i : Ingredient)
    (n : String) (q acc : Int), (cookbook.map CookbookEntry.name).Nodup →
    find_entry cookbook n = some (CookbookEntry.ingredient i) →
    cookTimeScan cookbook n q acc = some (acc + i.cook_time * q) := by
  intro cookbook
  induction cookbook with
  | nil =>
    intro i n q acc hN hfind
    simp [find_entry] at hfind
  | cons e rest ih =>
    intro i n q acc hN hfind
    by_cases he : e.name = n
    · have heq : e = CookbookEntry.ingredient i := by
        simp only [find_entry] at hfind
        rw [if_pos he] at hfind
        exact Option.some.inj hfind
      subst heq
      simp only [cookTimeScan]
      rw [if_pos he]
      apply cookTimeScan_no_match
      intro e2 h2 hc
      apply (List.nodup_cons.mp hN).1
      show (CookbookEntry.ingredient i).name ∈ List.map CookbookEntry.name rest
      rw [he, ← hc]
      exact List.mem_map_of_mem CookbookEntry.name h2
    · have hfind2 : find_entry rest n = some (CookbookEntry.ingredient i) := by
        simp only [find_entry] at hfind
        rw [if_neg he] at hfind
        exact hfind
      simp only [cookTimeScan]
      rw [if_neg he]
      exact ih i n q acc (List.nodup_cons.mp hN).2 hfind2

theorem gtctLoop_eval (cookbook : List CookbookEntry) : ∀ (d : Dict) (acc : Int),
    (cookbook.map CookbookEntry.name).Nodup →
    (∀ n ∈ dictKeys d, ingredientKey cookbook n) →
    gtctLoop cookbook d acc = some (acc + specTotalCookTime cookbook d) := by
  intro d
  induction d with
  | nil =>
    intro acc hN hkeys
    simp [gtctLoop, specTotalCookTime]
  | cons p rest ih =>
    intro acc hN hkeys
    obtain ⟨i, hfind⟩ := hkeys p.1 (List.mem_cons_self p.1 (dictKeys rest))
    simp only [gtctLoop, cookTimeScan_found cookbook i p.1 p.2 acc hN hfind]
    rw [ih (acc + i.cook_time * p.2) hN
      (fun n hn => hkeys n (List.mem_cons_of_mem p.1 hn))]
    have hct : cookTimeOf cookbook p.1 = i.cook_time := by
      simp [cookTimeOf, hfind]
    simp only [specTotalCookTime, hct]
    rw [add_assoc]

/-- C6: for every ingredient mapping produced by a successful resolution
over a distinct-name store, get_total_cook_time returns the sum over its
(ingredientName, quantity) pairs of the ingredient's stored cook time
times the quantity, and returns exactly 0 for the empty mapping. -/
theorem total_cook_time_sums (cookbook : List CookbookEntry) (fuel : Nat) (r : Recipe)
    (d : Dict)
    (hN : (cookbook.map CookbookEntry.name).Nodup)
    (h : get_base_ingredients cookbook fuel r 1 = some (Except.ok d)) :
    get_total_cook_time cookbook d = some (specTotalCookTime cookbook d) ∧
    get_total_cook_time cookbook [] = some 0 := by
  constructor
  · unfold get_total_cook_time
    rw [gtctLoop_eval cookbook d 0 hN (gbi_keys cookbook fuel r 1 d h), zero_add]
  · rfl

/-- Witness for C6 at the Dough/Flour store: the aggregation of the
resolved mapping equals the specification sum, and the empty mapping
aggregates to 0. -/
theorem total_cook_time_sums_witness :
    get_total_cook_time doughStore [("Flour", 2)] =
      some (specTotalCookTime doughStore [("Flour", 2)]) ∧
    get_total_cook_time doughStore [] = some 0 :=
  total_cook_time_sums doughStore 1 doughRecipe [("Flour", 2)] (by decide) (by decide)

theorem find_entry_mem : ∀ (cookbook : List CookbookEntry) (n : String)
    (e : CookbookEntry), find_entry cookbook n = some e →
    e ∈ cookbook ∧ e.name = n := by
  intro cookbook n
  induction cookbook with
  | nil =>
    intro e h
    simp [find_entry] at h
  | cons e2 rest ih =>
    intro e h
    by_cases he : e2.name = n
    · simp only [find_entry] at h
      rw [if_pos he] at h
      obtain rfl := Option.some.inj h
      exact ⟨List.mem_cons_self e2 rest, he⟩
    · simp only [find_entry] at h
      rw [if_neg he] at h
      obtain ⟨hm, hn⟩ := ih e h
      exact ⟨List.mem_cons_of_mem e2 hm, hn⟩

/-- The name resolves in the store to a Recipe entry. -/
def isSubRecipe (cookbook : List CookbookEntry) (n : String) : Bool :=
  match find_entry cookbook n with
  | some (CookbookEntry.recipe _) => true
  | _ => false

/-- Acyclicity certificate for the requirement-reference graph of a
store: a rank that strictly decreases from each recipe of the store to
every required item that resolves to a recipe.  Such a rank exists
exactly when the reference graph among the store's recipes is acyclic. -/
def rankOkB (cookbook : List CookbookEntry) (rank : String → Nat) : Bool :=
  cookbook.all (fun e =>
    match e with
    | CookbookEntry.ingredient _ => true
    | CookbookEntry.recipe r =>
      r.required_items.all (fun item =>
        !(isSubRecipe cookbook item.name) || decide (rank item.name < rank r.name)))

theorem gbiLoop_total (cookbook : List CookbookEntry)
    (f : Recipe → Int → Option (Except Unit Dict)) :
    ∀ items mult acc,
      (∀ item ∈ items, ∀ r2,
        find_entry cookbook item.name = some (CookbookEntry.recipe r2) →
        ∀ m, (f r2 m).isSome) →
      (gbiLoop cookbook f items mult acc).isSome := by
  intro items
  induction items with
  | nil =>
    intro mult acc hsub
    simp [gbiLoop]
  | cons item rest ih =>
    intro mult acc hsub
    rcases hfind : find_entry cookbook item.name with _ | (r | i)
    · simp [gbiLoop, hfind]
    · have hf := hsub item (List.mem_cons_self item rest) r hfind (item.quantity * mult)
      rcases hfr : f r (item.quantity * mult) with _ | (e0 | sub)
      · rw [hfr] at hf
        simp at hf
      · simp [gbiLoop, hfind, hfr]
      · simp only [gbiLoop, hfind, hfr]
        exact ih mult (mergeDict acc sub)
          (fun it hit => hsub it (List.mem_cons_of_mem item hit))
    · simp only [gbiLoop, hfind]
      exact ih mult (dictAdd acc item.name (item.quantity * mult))
        (fun it hit => hsub it (List.mem_cons_of_mem item hit))

theorem gbi_total_of_rank (cookbook : List CookbookEntry) (rank : String → Nat)
    (hrank : rankOkB cookbook rank = true) :
    ∀ fuel r mult, CookbookEntry.recipe r ∈ cookbook → rank r.name < fuel →
      (get_base_ingredients cookbook fuel r mult).isSome := by
  intro fuel
  induction fuel with
  | zero =>
    intro r mult hr hlt
    exact absurd hlt (Nat.not_lt_zero _)
  | succ f ih =>
    intro r mult hr hlt
    simp only [get_base_ingredients]
    apply gbiLoop_total
    intro item hitem r2 hfind m
    have hsubB : isSubRecipe cookbook item.name = true := by
      simp [isSubRecipe, hfind]
    obtain ⟨hmem2, hname⟩ := find_entry_mem cookbook item.name _ hfind
    have hallR : r.required_items.all (fun item =>
        !(isSubRecipe cookbook item.name) ||
          decide (rank item.name < rank r.name)) = true := by
      unfold rankOkB at hrank
      exact List.all_eq_true.mp hrank (CookbookEntry.recipe r) hr
    have hall2 := List.all_eq_true.mp hallR item hitem
    have hlt2 : rank item.name < rank r.name := by
      rw [Bool.or_eq_true] at hall2
      rcases hall2 with hc | hc
      · rw [hsubB] at hc
        simp at hc
      · exact of_decide_eq_true hc
    apply ih r2 m hmem2
    show rank (CookbookEntry.name (CookbookEntry.recipe r2)) < f
    rw [show CookbookEntry.name (CookbookEntry.recipe r2) = item.name from hname]
    omega

theorem cyclic_diverges : ∀ fuel : Nat,
    (∀ mult : Int, get_base_ingredients cyclicStore fuel recipeA mult = none) ∧
    (∀ mult : Int, get_base_ingredients cyclicStore fuel recipeB mult = none) := by
  intro fuel
  induction fuel with
  | zero => exact ⟨fun mult => rfl, fun mult => rfl⟩
  | succ f ih =>
    constructor
    · intro mult
      have hfind : find_entry cyclicStore "B" = some (CookbookEntry.recipe recipeB) := by
        decide
      simp only [get_base_ingredients, recipeA, gbiLoop, hfind, ih.2]
    · intro mult
      have hfind : find_entry cyclicStore "A" = some (CookbookEntry.recipe recipeA) := by
        decide
      simp only [get_base_ingredients, recipeB, gbiLoop, hfind, ih.1]

/-- C7: over any store carrying a rank certificate for acyclicity of the
requirement-reference graph, the expansion of every recipe of the store
terminates with a result (isSome) once the fuel exceeds the recipe's
rank; on the cyclic store where A requires B and B requires A, the
expansion of A returns none at every fuel, i.e. no recursion depth
completes it — the code performs no cycle detection. -/
theorem acyclic_terminates_cyclic_diverges :
    (∀ (cookbook : List CookbookEntry) (rank : String → Nat) (fuel : Nat)
        (r : Recipe) (mult : Int),
      rankOkB cookbook rank = true → CookbookEntry.recipe r ∈ cookbook →
      rank r.name < fuel → (get_base_ingredients cookbook fuel r mult).isSome) ∧
    (∀ (fuel : Nat) (mult : Int),
      get_base_ingredients cyclicStore fuel recipeA mult = none) :=
  ⟨fun cookbook rank fuel r mult hrank hr hlt =>
      gbi_total_of_rank cookbook rank hrank fuel r mult hr hlt,
   fun fuel mult => (cyclic_diverges fuel).1 mult⟩

/-- Witness for C7 over the Dough/Flour store: rank Dough 1, everything
else 0, is a valid certificate and the expansion completes at fuel 2. -/
theorem acyclic_terminates_witness :
    (get_base_ingredients doughStore 2 doughRecipe 1).isSome :=
  acyclic_terminates_cyclic_diverges.1 doughStore
    (fun n => if n = "Dough" then 1 else 0) 2 doughRecipe 1
    (by decide) (by decide) (by decide)

end Devdonalds
